import Mathlib

/-!
Verification development for the geocoding core of `scripts/geocode.py`.

The Python source is shallowly embedded: the external provider is an
explicit oracle (`Env`) mapping each query/address to the response the
network would return; the mutable cache dict is threaded explicitly as an
association list; side effects (live network calls, throttle sleeps) are
recorded in an event trace.  Numbers are modelled as rationals (the code
only passes `float` values through unchanged), and JSON payloads are
modelled as the well-typed shapes the code reads out of them.
-/

namespace Furusato

/-- A resolved coordinate entry, as stored in the in-memory cache:
`{"lat": .., "lng": .., "place_id"?: ..}`. -/
structure Coords where
  lat : ℚ
  lng : ℚ
  place_id : Option String
deriving DecidableEq

/-- Python truthiness of `cached.get("place_id")`: the entry has a
place id that is a non-empty string. -/
def Coords.hasPid (c : Coords) : Bool :=
  match c.place_id with
  | some p => if p = "" then false else true
  | none => false

/-- Python `if place_id: ... str(place_id)`: keep a place id only when it is a
truthy (non-empty) string. -/
def normPid : Option String → Option String
  | some p => if p = "" then none else some p
  | none => none

/-- The in-memory cache: insertion-ordered mapping from lookup key to
either `null` (recorded not-found) or a coordinate entry. -/
abbrev Cache := List (String × Option Coords)

/-- Dict lookup: `cache[k]` / `k in cache` (first matching key). -/
def cfind : Cache → String → Option (Option Coords)
  | [], _ => none
  | (k', v) :: rest, k => if k' = k then some v else cfind rest k

/-- Dict assignment `cache[k] = v`: replace the first binding of `k`,
or append a new binding. -/
def cinsert : Cache → String → Option Coords → Cache
  | [], k, v => [(k, v)]
  | (k', v') :: rest, k, v =>
    if k' = k then (k, v) :: rest else (k', v') :: cinsert rest k v

theorem cfind_cinsert_self (c : Cache) (k : String) (v : Option Coords) :
    cfind (cinsert c k v) k = some v := by
  induction c with
  | nil => simp [cinsert, cfind]
  | cons p rest ih =>
    by_cases h : p.1 = k
    · simp [cinsert, cfind, h]
    · simp [cinsert, cfind, h, ih]

theorem cfind_cinsert_ne (c : Cache) (k k' : String) (v : Option Coords)
    (h : k' ≠ k) : cfind (cinsert c k v) k' = cfind c k' := by
  have h2 : ¬(k = k') := fun h' => h h'.symm
  induction c with
  | nil => simp [cinsert, cfind, h2]
  | cons p rest ih =>
    by_cases hp : p.1 = k
    · subst hp
      simp [cinsert, cfind, h2, fun h' : p.1 = k' => h h'.symm]
    · by_cases hp' : p.1 = k'
      · simp [cinsert, cfind, hp, hp', h]
      · simp [cinsert, cfind, hp, hp', ih]

/-- Model of `place.get("id", "").replace("places/", "")`: Python `str.replace`
removes every (leftmost, non-overlapping) occurrence of the pattern. -/
def removeAux : List Char → List Char
  | 'p' :: 'l' :: 'a' :: 'c' :: 'e' :: 's' :: '/' :: rest => removeAux rest
  | c :: rest => c :: removeAux rest
  | [] => []

def stripPlaces (s : String) : String := String.mk (removeAux s.data)

/-- The `place["location"]` sub-object of a Places API (New) candidate. -/
structure Location where
  latitude : ℚ
  longitude : ℚ
deriving DecidableEq

/-- One candidate of a Places API (New) response; `location = none`
models a missing/empty (falsy) location object. -/
structure PlaceNew where
  location : Option Location
  id : String
deriving DecidableEq

/-- Places API (New) HTTP response: transport status plus parsed body. -/
structure NewResp where
  status_code : ℕ
  places : List PlaceNew
deriving DecidableEq

/-- One candidate of a legacy find-place response. -/
structure LegacyCand where
  lat : ℚ
  lng : ℚ
  place_id : String
deriving DecidableEq

/-- Legacy find-place HTTP response. -/
structure LegacyResp where
  status_code : ℕ
  status : String
  candidates : List LegacyCand
deriving DecidableEq

/-- One result of a Geocoding API response. -/
structure GeoResult where
  lat : ℚ
  lng : ℚ
  place_id : Option String
deriving DecidableEq

/-- Geocoding API HTTP response. -/
structure GeoResp where
  status_code : ℕ
  status : String
  results : List GeoResult
  error_message : String
deriving DecidableEq

/-- The external world: what each live call would return.  An `.error`
value models an exception raised while contacting a place-search
endpoint (swallowed by `find_place`). -/
structure Env where
  newResp : String → Except Unit NewResp
  legacyResp : String → Except Unit LegacyResp
  geocodeResp : String → GeoResp

inductive CallKind where
  | placeNew
  | placeLegacy
  | geocode
deriving DecidableEq

/-- Observable effects: a live outbound call (with the query/address it
was made for) or a throttle sleep. -/
inductive Event where
  | live (kind : CallKind) (query : String)
  | sleep
deriving DecidableEq

/-- Python `if throttle: time.sleep(throttle)` — sleeps only for truthy
(non-zero) throttle values. -/
def sleepEv (t : ℚ) : List Event := if t = 0 then [] else [Event.sleep]

/-- Model of `find_place_new` (geocode.py:93-134) applied to the response the
oracle returns for its query. -/
def find_place_new (query : String) (resp : NewResp) (t : ℚ) :
    Option Coords × List Event :=
  let ev : List Event := [Event.live .placeNew query]
  if resp.status_code ≠ 200 then (none, ev)
  else
    match resp.places with
    | [] => (none, ev)
    | place :: _ =>
      let pid := stripPlaces place.id
      match place.location with
      | some loc =>
        if pid = "" then (none, ev)
        else (some ⟨loc.latitude, loc.longitude, some pid⟩, ev ++ sleepEv t)
      | none => (none, ev)

/-- Model of `find_place_legacy` (geocode.py:137-172). -/
def find_place_legacy (query : String) (resp : LegacyResp) (t : ℚ) :
    Option Coords × List Event :=
  let ev : List Event := [Event.live .placeLegacy query]
  if resp.status_code ≠ 200 then (none, ev)
  else if resp.status = "OK" then
    match resp.candidates with
    | [] => (none, ev)
    | cand :: _ =>
      (some ⟨cand.lat, cand.lng, some cand.place_id⟩, ev ++ sleepEv t)
  else (none, ev)

/-- The `try: find_place_new .. except Exception: pass` arm of
`find_place`: a raised exception is swallowed and counts as no result
(the live call was still attempted). -/
def runNew (env : Env) (q : String) (t : ℚ) : Option Coords × List Event :=
  match env.newResp q with
  | .ok resp => find_place_new q resp t
  | .error _ => (none, [Event.live .placeNew q])

/-- The legacy arm of `find_place`, with the same exception swallowing. -/
def runLegacy (env : Env) (q : String) (t : ℚ) : Option Coords × List Event :=
  match env.legacyResp q with
  | .ok resp => find_place_legacy q resp t
  | .error _ => (none, [Event.live .placeLegacy q])

/-- Model of `find_place` (geocode.py:175-208): empty query short-circuits; a
cached `place:`-key hit is returned as-is; otherwise the structured
strategy is tried, then the legacy one, and the combined result
(possibly `None`) is written to the cache under the place key. -/
def find_place (q : String) (env : Env) (cache : Cache) (t : ℚ) :
    Option Coords × Cache × List Event :=
  if q = "" then (none, cache, [])
  else
    match cfind cache ("place:" ++ q) with
    | some v => (v, cache, [])
    | none =>
      let s1 := runNew env q t
      match s1.1 with
      | some r => (some r, cinsert cache ("place:" ++ q) (some r), s1.2)
      | none =>
        let s2 := runLegacy env q t
        (s2.1, cinsert cache ("place:" ++ q) s2.1, s1.2 ++ s2.2)

/-- Errors `geocode_address` can raise.  The first three are the
`GeocodeError` messages of the source; `indexErr` models the uncaught
`IndexError` of `payload["results"][0]` on an (out-of-contract)
`"OK"` payload with an empty result list. -/
inductive GeoErr where
  | transport (code : ℕ)
  | quota (status : String) (message : String)
  | unexpected (status : String) (message : String)
  | indexErr
deriving DecidableEq

/-- The live branch of `geocode_address` (geocode.py:231-267): contact
the Geocoding API and classify the response. -/
def geocodeLive (address : String) (env : Env) (cache : Cache) (t : ℚ) :
    Except GeoErr (Option Coords) × Cache × List Event :=
  let resp := env.geocodeResp address
  let ev : List Event := [Event.live .geocode address]
  if resp.status_code ≠ 200 then (.error (.transport resp.status_code), cache, ev)
  else if resp.status = "OK" then
    match resp.results with
    | [] => (.error .indexErr, cache, ev)
    | r :: _ =>
      let entry : Coords := ⟨r.lat, r.lng, normPid r.place_id⟩
      (.ok (some entry), cinsert cache address (some entry), ev ++ sleepEv t)
  else if resp.status = "ZERO_RESULTS" ∨ resp.status = "NOT_FOUND" then
    (.ok none, cinsert cache address none, ev ++ sleepEv t)
  else if resp.status = "OVER_DAILY_LIMIT" ∨ resp.status = "OVER_QUERY_LIMIT"
      ∨ resp.status = "REQUEST_DENIED" then
    (.error (.quota resp.status resp.error_message), cache, ev)
  else
    (.error (.unexpected resp.status resp.error_message), cache, ev)

/-- Model of `geocode_address` (geocode.py:211-267): empty address is a no-call
`None`; a cached `None` or a cached entry with a truthy place id is
returned; a cached entry missing its place id falls through to a live
refresh, as does an uncached address. -/
def geocode_address (address : String) (env : Env) (cache : Cache) (t : ℚ) :
    Except GeoErr (Option Coords) × Cache × List Event :=
  if address = "" then (.ok none, cache, [])
  else
    match cfind cache address with
    | some none => (.ok none, cache, [])
    | some (some e) =>
      if e.hasPid then (.ok (some e), cache, [])
      else geocodeLive address env cache t
    | none => geocodeLive address env cache t

/-- The candidate loop of `process_shops` (geocode.py:397-404): try each
query via `find_place`, stopping at the first truthy result. -/
def try_queries : List String → Env → Cache → ℚ →
    Option Coords × Cache × List Event
  | [], _, c, _ => (none, c, [])
  | q :: rest, env, c, t =>
    let s := find_place q env c t
    match s.1 with
    | some r => (some r, s.2.1, s.2.2)
    | none =>
      let s2 := try_queries rest env s.2.1 t
      (s2.1, s2.2.1, s.2.2 ++ s2.2.2)

/-- One record's resolution in `process_shops` (geocode.py:397-410):
the candidate loop, then — when no candidate produced a result and an
address is available — the geocode fallback. -/
def resolve_record (queries : List String) (address : String) (env : Env)
    (cache : Cache) (t : ℚ) :
    Except GeoErr (Option Coords) × Cache × List Event :=
  let s := try_queries queries env cache t
  match s.1 with
  | some c => (.ok (some c), s.2.1, s.2.2)
  | none =>
    if address = "" then (.ok none, s.2.1, s.2.2)
    else
      let g := geocode_address address env s.2.1 t
      (g.1, g.2.1, s.2.2 ++ g.2.2)

instance {α β : Type} [DecidableEq α] [DecidableEq β] : DecidableEq (Except α β) :=
  fun x y =>
  match x, y with
  | .ok a, .ok b =>
    if h : a = b then isTrue (by rw [h]) else isFalse (fun hh => h (Except.ok.inj hh))
  | .error a, .error b =>
    if h : a = b then isTrue (by rw [h]) else isFalse (fun hh => h (Except.error.inj hh))
  | .ok _, .error _ => isFalse (fun hh => Except.noConfusion hh)
  | .error _, .ok _ => isFalse (fun hh => Except.noConfusion hh)

/-- A raw on-disk cache entry as JSON exposes it to `_normalize_coords`:
optional numeric `lat`/`lng` fields and an optional string place id. -/
structure RawCoord where
  lat : Option ℚ
  lng : Option ℚ
  place_id : Option String
deriving DecidableEq

/-- The parsed on-disk cache file: a JSON object mapping lookup keys to
`null` or a raw entry (textual key order is irrelevant to the mapping). -/
abbrev RawCache := List (String × Option RawCoord)

/-- Error raised by `load_cache` on a malformed entry (`KeyError` /
`TypeError` / `ValueError` wrapped into `GeocodeError`). -/
inductive CacheErr where
  | corrupt
deriving DecidableEq

/-- Model of `_normalize_coords` (geocode.py:33-42): require `lat` and `lng`,
keep `place_id` only when truthy. -/
def normalize_coords (v : RawCoord) : Except CacheErr Coords :=
  match v.lat, v.lng with
  | some la, some ln => .ok ⟨la, ln, normPid v.place_id⟩
  | _, _ => .error .corrupt

/-- Model of `load_cache` (geocode.py:49-61) on an existing file's parsed JSON:
normalize every non-null entry, failing on the first malformed one. -/
def load_cache : RawCache → Except CacheErr Cache
  | [] => .ok []
  | (k, none) :: rest => (load_cache rest).map (fun c => (k, none) :: c)
  | (k, some v) :: rest =>
    match normalize_coords v with
    | .ok e => (load_cache rest).map (fun c => (k, some e) :: c)
    | .error err => .error err

/-- The serialized form of one in-memory entry, as `save_cache`
(geocode.py:64-67) writes it with `json.dump`. -/
def serialize_entry (c : Coords) : RawCoord := ⟨some c.lat, some c.lng, c.place_id⟩

/-- Model of `save_cache` at the mapping level: `json.dump` writes exactly the
mapping (the `sort_keys` flag changes only the textual key order, not
the mapping the file denotes). -/
def save_cache (c : Cache) : RawCache :=
  c.map (fun p => (p.1, p.2.map serialize_entry))

/-- Run-level observable effects of `main`: loading the cache file and
saving it (with the cache contents saved). -/
inductive RunEvent where
  | loadEv
  | saveEv (c : Cache)
deriving DecidableEq

/-- Errors that can escape `main`'s batch. -/
inductive MainErr where
  | cacheFatal (e : CacheErr)
  | batch (e : GeoErr)
deriving DecidableEq

/-- Model of `main` (geocode.py:584-621), with the three `process_*` passes
abstracted as one `body` acting on the cache and either finishing or
raising a batch-fatal `GeocodeError`: a missing/empty API key exits
with code 2 before any cache access; a cache-load failure propagates
with no save (the load sits before the `try`); otherwise the body runs
(on a cleared cache under `--force-refresh`) and the `finally` block
saves the accumulated cache exactly once, on success and failure alike. -/
def main_run (apiKey : Option String) (loadRes : Except CacheErr Cache)
    (forceRefresh : Bool) (body : Cache → Option GeoErr × Cache) :
    Except MainErr ℕ × List RunEvent :=
  match apiKey with
  | none => (.ok 2, [])
  | some key =>
    if key = "" then (.ok 2, [])
    else
      match loadRes with
      | .error e => (.error (.cacheFatal e), [RunEvent.loadEv])
      | .ok cache0 =>
        let c := if forceRefresh then [] else cache0
        let res := body c
        match res.1 with
        | none => (.ok 0, [RunEvent.loadEv, RunEvent.saveEv res.2])
        | some e => (.error (.batch e), [RunEvent.loadEv, RunEvent.saveEv res.2])

/-! ### Characterization lemmas for the place-search tier -/

theorem find_place_new_events (q : String) (resp : NewResp) (t : ℚ) :
    (find_place_new q resp t).2.head? = some (Event.live .placeNew q) := by
  unfold find_place_new
  by_cases h : resp.status_code ≠ 200
  · simp [h]
  · cases resp.places with
    | nil => simp [h]
    | cons p rest =>
      cases hl : p.location with
      | none => simp [h, hl]
      | some loc =>
        by_cases hp : stripPlaces p.id = "" <;> simp [h, hl, hp, sleepEv]

theorem find_place_legacy_events (q : String) (resp : LegacyResp) (t : ℚ) :
    (find_place_legacy q resp t).2.head? = some (Event.live .placeLegacy q) := by
  unfold find_place_legacy
  by_cases h : resp.status_code ≠ 200
  · simp [h]
  · by_cases hs : resp.status = "OK"
    · cases resp.candidates with
      | nil => simp [h, hs]
      | cons cand rest => simp [h, hs, sleepEv]
    · simp [h, hs]

theorem runNew_events (env : Env) (q : String) (t : ℚ) :
    (runNew env q t).2.head? = some (Event.live .placeNew q) := by
  unfold runNew
  cases h : env.newResp q with
  | ok resp => exact find_place_new_events q resp t
  | error e => rfl

theorem runLegacy_events (env : Env) (q : String) (t : ℚ) :
    (runLegacy env q t).2.head? = some (Event.live .placeLegacy q) := by
  unfold runLegacy
  cases h : env.legacyResp q with
  | ok resp => exact find_place_legacy_events q resp t
  | error e => rfl

theorem runNew_ne_nil (env : Env) (q : String) (t : ℚ) :
    (runNew env q t).2 ≠ [] := by
  intro hnil
  have h := runNew_events env q t
  rw [hnil] at h
  cases h

theorem find_place_new_transport {q : String} {resp : NewResp} {t : ℚ}
    (h1 : resp.status_code ≠ 200) :
    find_place_new q resp t = (none, [Event.live .placeNew q]) := by
  simp [find_place_new, h1]

theorem find_place_new_noplaces {q : String} {resp : NewResp} {t : ℚ}
    (h1 : resp.status_code = 200) (h2 : resp.places = []) :
    find_place_new q resp t = (none, [Event.live .placeNew q]) := by
  simp [find_place_new, h1, h2]

theorem find_place_new_noloc {q : String} {resp : NewResp} {t : ℚ}
    {p : PlaceNew} {prest : List PlaceNew}
    (h1 : resp.status_code = 200) (h2 : resp.places = p :: prest)
    (h3 : p.location = none) :
    find_place_new q resp t = (none, [Event.live .placeNew q]) := by
  simp [find_place_new, h1, h2, h3]

theorem find_place_new_nopid {q : String} {resp : NewResp} {t : ℚ}
    {p : PlaceNew} {prest : List PlaceNew} {loc : Location}
    (h1 : resp.status_code = 200) (h2 : resp.places = p :: prest)
    (h3 : p.location = some loc) (h4 : stripPlaces p.id = "") :
    find_place_new q resp t = (none, [Event.live .placeNew q]) := by
  simp [find_place_new, h1, h2, h3, h4]

theorem find_place_new_success {q : String} {resp : NewResp} {t : ℚ}
    {p : PlaceNew} {prest : List PlaceNew} {loc : Location}
    (h1 : resp.status_code = 200) (h2 : resp.places = p :: prest)
    (h3 : p.location = some loc) (h4 : stripPlaces p.id ≠ "") :
    find_place_new q resp t
      = (some ⟨loc.latitude, loc.longitude, some (stripPlaces p.id)⟩,
         [Event.live .placeNew q] ++ sleepEv t) := by
  simp [find_place_new, h1, h2, h3, h4]

theorem find_place_legacy_transport {q : String} {resp : LegacyResp} {t : ℚ}
    (h1 : resp.status_code ≠ 200) :
    find_place_legacy q resp t = (none, [Event.live .placeLegacy q]) := by
  simp [find_place_legacy, h1]

theorem find_place_legacy_notok {q : String} {resp : LegacyResp} {t : ℚ}
    (h1 : resp.status_code = 200) (h2 : resp.status ≠ "OK") :
    find_place_legacy q resp t = (none, [Event.live .placeLegacy q]) := by
  simp [find_place_legacy, h1, h2]

theorem find_place_legacy_nocands {q : String} {resp : LegacyResp} {t : ℚ}
    (h1 : resp.status_code = 200) (h2 : resp.status = "OK")
    (h3 : resp.candidates = []) :
    find_place_legacy q resp t = (none, [Event.live .placeLegacy q]) := by
  simp [find_place_legacy, h1, h2, h3]

theorem find_place_legacy_success {q : String} {resp : LegacyResp} {t : ℚ}
    {cand : LegacyCand} {crest : List LegacyCand}
    (h1 : resp.status_code = 200) (h2 : resp.status = "OK")
    (h3 : resp.candidates = cand :: crest) :
    find_place_legacy q resp t
      = (some ⟨cand.lat, cand.lng, some cand.place_id⟩,
         [Event.live .placeLegacy q] ++ sleepEv t) := by
  simp [find_place_legacy, h1, h2, h3]

theorem find_place_empty (env : Env) (cache : Cache) (t : ℚ) :
    find_place "" env cache t = (none, cache, []) := by
  simp [find_place]

theorem find_place_hit {q : String} (env : Env) {cache : Cache} (t : ℚ)
    {v : Option Coords} (hq : q ≠ "")
    (hc : cfind cache ("place:" ++ q) = some v) :
    find_place q env cache t = (v, cache, []) := by
  simp [find_place, hq, hc]

theorem find_place_miss_new {q : String} {env : Env} {cache : Cache} {t : ℚ}
    {r : Coords} (hq : q ≠ "") (hc : cfind cache ("place:" ++ q) = none)
    (hr : (runNew env q t).1 = some r) :
    find_place q env cache t
      = (some r, cinsert cache ("place:" ++ q) (some r), (runNew env q t).2) := by
  simp [find_place, hq, hc, hr]

theorem find_place_miss_legacy {q : String} {env : Env} {cache : Cache} {t : ℚ}
    (hq : q ≠ "") (hc : cfind cache ("place:" ++ q) = none)
    (hr : (runNew env q t).1 = none) :
    find_place q env cache t
      = ((runLegacy env q t).1, cinsert cache ("place:" ++ q) (runLegacy env q t).1,
         (runNew env q t).2 ++ (runLegacy env q t).2) := by
  simp [find_place, hq, hc, hr]

/-- Re-running `find_place` on its own output cache is a silent cache hit. -/
theorem find_place_replay {q : String} {env : Env} {cache c' : Cache} {t : ℚ}
    {r : Option Coords} {ev : List Event}
    (h : find_place q env cache t = (r, c', ev)) :
    find_place q env c' t = (r, c', []) := by
  by_cases hq : q = ""
  · subst hq
    rw [find_place_empty] at h
    simp only [Prod.mk.injEq] at h
    obtain ⟨rfl, rfl, rfl⟩ := h
    exact find_place_empty env cache t
  · cases hc : cfind cache ("place:" ++ q) with
    | some v =>
      rw [find_place_hit env t hq hc] at h
      simp only [Prod.mk.injEq] at h
      obtain ⟨rfl, rfl, rfl⟩ := h
      exact find_place_hit env t hq hc
    | none =>
      cases hr : (runNew env q t).1 with
      | some r0 =>
        rw [find_place_miss_new hq hc hr] at h
        simp only [Prod.mk.injEq] at h
        obtain ⟨rfl, rfl, rfl⟩ := h
        exact find_place_hit env t hq (cfind_cinsert_self cache _ _)
      | none =>
        rw [find_place_miss_legacy hq hc hr] at h
        simp only [Prod.mk.injEq] at h
        obtain ⟨rfl, rfl, rfl⟩ := h
        exact find_place_hit env t hq (cfind_cinsert_self cache _ _)

/-- A `find_place` run with an empty event trace made no live call: the
cache is unchanged and the result came from the cache (or the query was
empty). -/
theorem find_place_noev {q : String} {env : Env} {cache c' : Cache} {t : ℚ}
    {r : Option Coords}
    (h : find_place q env cache t = (r, c', [])) :
    c' = cache ∧ ((q = "" ∧ r = none) ∨
      (q ≠ "" ∧ cfind cache ("place:" ++ q) = some r)) := by
  by_cases hq : q = ""
  · subst hq
    rw [find_place_empty] at h
    simp only [Prod.mk.injEq] at h
    obtain ⟨rfl, rfl, -⟩ := h
    exact ⟨rfl, Or.inl ⟨rfl, rfl⟩⟩
  · cases hc : cfind cache ("place:" ++ q) with
    | some v =>
      rw [find_place_hit env t hq hc] at h
      simp only [Prod.mk.injEq] at h
      refine ⟨h.2.1.symm, Or.inr ⟨hq, ?_⟩⟩
      rw [← h.1]
      try exact hc
    | none =>
      cases hr : (runNew env q t).1 with
      | some r0 =>
        rw [find_place_miss_new hq hc hr] at h
        simp only [Prod.mk.injEq] at h
        exact absurd h.2.2 (runNew_ne_nil env q t)
      | none =>
        rw [find_place_miss_legacy hq hc hr] at h
        simp only [Prod.mk.injEq] at h
        have h3 := h.2.2
        rw [List.append_eq_nil] at h3
        exact absurd h3.1 (runNew_ne_nil env q t)

/-- `find_place` never removes or changes an existing cache binding. -/
theorem find_place_preserves {q : String} {env : Env} {cache c' : Cache} {t : ℚ}
    {r v : Option Coords} {ev : List Event} {k : String}
    (h : find_place q env cache t = (r, c', ev))
    (hk : cfind cache k = some v) : cfind c' k = some v := by
  by_cases hq : q = ""
  · subst hq
    rw [find_place_empty] at h
    simp only [Prod.mk.injEq] at h
    obtain ⟨-, rfl, -⟩ := h
    exact hk
  · cases hc : cfind cache ("place:" ++ q) with
    | some w =>
      rw [find_place_hit env t hq hc] at h
      simp only [Prod.mk.injEq] at h
      obtain ⟨-, rfl, -⟩ := h
      exact hk
    | none =>
      have hkq : k ≠ "place:" ++ q := by
        intro hkq
        rw [hkq, hc] at hk
        cases hk
      cases hr : (runNew env q t).1 with
      | some r0 =>
        rw [find_place_miss_new hq hc hr] at h
        simp only [Prod.mk.injEq] at h
        obtain ⟨-, rfl, -⟩ := h
        rw [cfind_cinsert_ne cache _ _ _ hkq]
        exact hk
      | none =>
        rw [find_place_miss_legacy hq hc hr] at h
        simp only [Prod.mk.injEq] at h
        obtain ⟨-, rfl, -⟩ := h
        rw [cfind_cinsert_ne cache _ _ _ hkq]
        exact hk

/-- After a non-empty-query `find_place` run, the place key holds
exactly the value the call returned. -/
theorem find_place_key {q : String} {env : Env} {cache c' : Cache} {t : ℚ}
    {r : Option Coords} {ev : List Event} (hq : q ≠ "")
    (h : find_place q env cache t = (r, c', ev)) :
    cfind c' ("place:" ++ q) = some r := by
  cases hc : cfind cache ("place:" ++ q) with
  | some v =>
    rw [find_place_hit env t hq hc] at h
    simp only [Prod.mk.injEq] at h
    obtain ⟨rfl, rfl, -⟩ := h
    exact hc
  | none =>
    cases hr : (runNew env q t).1 with
    | some r0 =>
      rw [find_place_miss_new hq hc hr] at h
      simp only [Prod.mk.injEq] at h
      obtain ⟨rfl, rfl, -⟩ := h
      exact cfind_cinsert_self cache _ _
    | none =>
      rw [find_place_miss_legacy hq hc hr] at h
      simp only [Prod.mk.injEq] at h
      obtain ⟨rfl, rfl, -⟩ := h
      exact cfind_cinsert_self cache _ _

/-- A silent (no-event) `find_place` run behaves identically on any
cache that agrees on the one place key it reads. -/
theorem find_place_agree {q : String} {env : Env} {cache c' d : Cache} {t : ℚ}
    {r : Option Coords}
    (hagree : cfind cache ("place:" ++ q) = cfind d ("place:" ++ q))
    (h : find_place q env cache t = (r, c', [])) :
    find_place q env d t = (r, d, []) := by
  obtain ⟨rfl, hcase⟩ := find_place_noev h
  rcases hcase with ⟨rfl, rfl⟩ | ⟨hq, hc⟩
  · exact find_place_empty env d t
  · exact find_place_hit env t hq (hagree ▸ hc)

/-! ### Characterization lemmas for the candidate loop -/

theorem try_queries_nil (env : Env) (c : Cache) (t : ℚ) :
    try_queries [] env c t = (none, c, []) := rfl

theorem try_queries_cons_some {q : String} {rest : List String} {env : Env}
    {c c' : Cache} {t : ℚ} {r0 : Coords} {ev : List Event}
    (h : find_place q env c t = (some r0, c', ev)) :
    try_queries (q :: rest) env c t = (some r0, c', ev) := by
  simp [try_queries, h]

theorem try_queries_cons_none {q : String} {rest : List String} {env : Env}
    {c c1 : Cache} {t : ℚ} {ev : List Event}
    (h : find_place q env c t = (none, c1, ev)) :
    try_queries (q :: rest) env c t
      = ((try_queries rest env c1 t).1, (try_queries rest env c1 t).2.1,
         ev ++ (try_queries rest env c1 t).2.2) := by
  simp [try_queries, h]

/-- The candidate loop never removes or changes an existing cache binding. -/
theorem try_queries_preserves {qs : List String} {env : Env} {c c' : Cache}
    {t : ℚ} {r : Option Coords} {ev : List Event} {k : String} {v : Option Coords}
    (h : try_queries qs env c t = (r, c', ev)) (hk : cfind c k = some v) :
    cfind c' k = some v := by
  induction qs generalizing c c' r ev with
  | nil =>
    rw [try_queries_nil] at h
    simp only [Prod.mk.injEq] at h
    rw [← h.2.1]
    exact hk
  | cons q rest ih =>
    rcases hfp : find_place q env c t with ⟨r1, c1, ev1⟩
    cases r1 with
    | some r0 =>
      rw [try_queries_cons_some hfp] at h
      simp only [Prod.mk.injEq] at h
      rw [← h.2.1]
      exact find_place_preserves hfp hk
    | none =>
      rcases htr : try_queries rest env c1 t with ⟨r2, c2, ev2⟩
      rw [try_queries_cons_none hfp, htr] at h
      simp only [Prod.mk.injEq] at h
      rw [← h.2.1]
      exact ih htr (find_place_preserves hfp hk)

/-- Re-running the candidate loop on its own output cache returns the
same result silently (every lookup is now a cache hit). -/
theorem try_queries_replay {qs : List String} {env : Env} {c c' : Cache}
    {t : ℚ} {r : Option Coords} {ev : List Event}
    (h : try_queries qs env c t = (r, c', ev)) :
    try_queries qs env c' t = (r, c', []) := by
  induction qs generalizing c ev with
  | nil =>
    rw [try_queries_nil] at h
    simp only [Prod.mk.injEq] at h
    obtain ⟨rfl, rfl, -⟩ := h
    exact try_queries_nil env c t
  | cons q rest ih =>
    rcases hfp : find_place q env c t with ⟨r1, c1, ev1⟩
    cases r1 with
    | some r0 =>
      rw [try_queries_cons_some hfp] at h
      simp only [Prod.mk.injEq] at h
      obtain ⟨rfl, rfl, rfl⟩ := h
      exact try_queries_cons_some (find_place_replay hfp)
    | none =>
      rcases htr : try_queries rest env c1 t with ⟨r2, c2, ev2⟩
      rw [try_queries_cons_none hfp, htr] at h
      simp only [Prod.mk.injEq] at h
      obtain ⟨rfl, rfl, rfl⟩ := h
      have hrep := ih htr
      have hfp1 := find_place_replay hfp
      obtain ⟨-, hcase⟩ := find_place_noev hfp1
      have hfpd : find_place q env c2 t = (none, c2, []) := by
        rcases hcase with ⟨rfl, -⟩ | ⟨hq, hkey⟩
        · exact find_place_empty env c2 t
        · exact find_place_hit env t hq (try_queries_preserves htr hkey)
      rw [try_queries_cons_none hfpd, hrep]
      rfl

/-- A silent candidate-loop run behaves identically on any cache that
agrees with the original on every place key. -/
theorem try_queries_agree {qs : List String} {env : Env} {c d : Cache}
    {t : ℚ} {r : Option Coords}
    (hagree : ∀ q', cfind c ("place:" ++ q') = cfind d ("place:" ++ q'))
    (h : try_queries qs env c t = (r, c, [])) :
    try_queries qs env d t = (r, d, []) := by
  induction qs with
  | nil =>
    rw [try_queries_nil] at h
    simp only [Prod.mk.injEq] at h
    obtain ⟨rfl, -, -⟩ := h
    exact try_queries_nil env d t
  | cons q rest ih =>
    rcases hfp : find_place q env c t with ⟨r1, c1, ev1⟩
    cases r1 with
    | some r0 =>
      rw [try_queries_cons_some hfp] at h
      simp only [Prod.mk.injEq] at h
      obtain ⟨rfl, hc1, hev1⟩ := h
      rw [hc1, hev1] at hfp
      exact try_queries_cons_some (find_place_agree (hagree q) hfp)
    | none =>
      rcases htr : try_queries rest env c1 t with ⟨r2, c2, ev2⟩
      rw [try_queries_cons_none hfp, htr] at h
      simp only [Prod.mk.injEq] at h
      obtain ⟨rfl, hc2, hev⟩ := h
      rw [List.append_eq_nil] at hev
      rw [hev.1] at hfp
      obtain ⟨hc1, -⟩ := find_place_noev hfp
      rw [hc1] at hfp htr
      rw [hc2, hev.2] at htr
      have hfpd := find_place_agree (hagree q) hfp
      rw [try_queries_cons_none hfpd, ih htr]
      rfl

/-! ### Characterization lemmas for the geocode tier -/

theorem geocode_empty (env : Env) (c : Cache) (t : ℚ) :
    geocode_address "" env c t = (.ok none, c, []) := by
  simp [geocode_address]

theorem geocode_hit_none {a : String} (env : Env) {c : Cache} (t : ℚ)
    (ha : a ≠ "") (hc : cfind c a = some none) :
    geocode_address a env c t = (.ok none, c, []) := by
  simp [geocode_address, ha, hc]

theorem geocode_hit_found {a : String} (env : Env) {c : Cache} (t : ℚ)
    {e : Coords} (ha : a ≠ "") (hc : cfind c a = some (some e))
    (hp : e.hasPid = true) :
    geocode_address a env c t = (.ok (some e), c, []) := by
  simp [geocode_address, ha, hc, hp]

theorem geocode_stale {a : String} (env : Env) {c : Cache} (t : ℚ)
    {e : Coords} (ha : a ≠ "") (hc : cfind c a = some (some e))
    (hp : e.hasPid = false) :
    geocode_address a env c t = geocodeLive a env c t := by
  simp [geocode_address, ha, hc, hp]

theorem geocode_miss {a : String} (env : Env) {c : Cache} (t : ℚ)
    (ha : a ≠ "") (hc : cfind c a = none) :
    geocode_address a env c t = geocodeLive a env c t := by
  simp [geocode_address, ha, hc]

theorem geocodeLive_transport {a : String} {env : Env} (c : Cache) (t : ℚ)
    (h1 : (env.geocodeResp a).status_code ≠ 200) :
    geocodeLive a env c t
      = (.error (.transport (env.geocodeResp a).status_code), c,
         [Event.live .geocode a]) := by
  simp [geocodeLive, h1]

theorem geocodeLive_ok {a : String} {env : Env} (c : Cache) (t : ℚ)
    {rr : GeoResult} {rrest : List GeoResult}
    (h1 : (env.geocodeResp a).status_code = 200)
    (h2 : (env.geocodeResp a).status = "OK")
    (hres : (env.geocodeResp a).results = rr :: rrest) :
    geocodeLive a env c t
      = (.ok (some ⟨rr.lat, rr.lng, normPid rr.place_id⟩),
         cinsert c a (some ⟨rr.lat, rr.lng, normPid rr.place_id⟩),
         [Event.live .geocode a] ++ sleepEv t) := by
  simp [geocodeLive, h1, h2, hres]

theorem geocodeLive_ok_nil {a : String} {env : Env} (c : Cache) (t : ℚ)
    (h1 : (env.geocodeResp a).status_code = 200)
    (h2 : (env.geocodeResp a).status = "OK")
    (hres : (env.geocodeResp a).results = []) :
    geocodeLive a env c t = (.error .indexErr, c, [Event.live .geocode a]) := by
  simp [geocodeLive, h1, h2, hres]

theorem geocodeLive_zero {a : String} {env : Env} (c : Cache) (t : ℚ)
    (h1 : (env.geocodeResp a).status_code = 200)
    (h3 : (env.geocodeResp a).status = "ZERO_RESULTS"
        ∨ (env.geocodeResp a).status = "NOT_FOUND") :
    geocodeLive a env c t
      = (.ok none, cinsert c a none, [Event.live .geocode a] ++ sleepEv t) := by
  have h2 : (env.geocodeResp a).status ≠ "OK" := by
    rcases h3 with h | h <;> simp [h]
  simp [geocodeLive, h1, h2, h3]

theorem geocodeLive_quota {a : String} {env : Env} (c : Cache) (t : ℚ)
    (h1 : (env.geocodeResp a).status_code = 200)
    (h4 : (env.geocodeResp a).status = "OVER_DAILY_LIMIT"
        ∨ (env.geocodeResp a).status = "OVER_QUERY_LIMIT"
        ∨ (env.geocodeResp a).status = "REQUEST_DENIED") :
    geocodeLive a env c t
      = (.error (.quota (env.geocodeResp a).status (env.geocodeResp a).error_message),
         c, [Event.live .geocode a]) := by
  have h2 : (env.geocodeResp a).status ≠ "OK" := by
    rcases h4 with h | h | h <;> simp [h]
  have h3 : ¬((env.geocodeResp a).status = "ZERO_RESULTS"
      ∨ (env.geocodeResp a).status = "NOT_FOUND") := by
    rcases h4 with h | h | h <;> simp [h]
  simp [geocodeLive, h1, h2, h3, h4]

theorem geocodeLive_unexpected {a : String} {env : Env} (c : Cache) (t : ℚ)
    (h1 : (env.geocodeResp a).status_code = 200)
    (h2 : (env.geocodeResp a).status ≠ "OK")
    (h3 : ¬((env.geocodeResp a).status = "ZERO_RESULTS"
        ∨ (env.geocodeResp a).status = "NOT_FOUND"))
    (h4 : ¬((env.geocodeResp a).status = "OVER_DAILY_LIMIT"
        ∨ (env.geocodeResp a).status = "OVER_QUERY_LIMIT"
        ∨ (env.geocodeResp a).status = "REQUEST_DENIED")) :
    geocodeLive a env c t
      = (.error (.unexpected (env.geocodeResp a).status (env.geocodeResp a).error_message),
         c, [Event.live .geocode a]) := by
  simp [geocodeLive, h1, h2, h3, h4]

/-- Every live geocode branch records the live call as its first event. -/
theorem geocodeLive_events (a : String) (env : Env) (c : Cache) (t : ℚ) :
    ∃ tail, (geocodeLive a env c t).2.2 = Event.live .geocode a :: tail := by
  by_cases h1 : (env.geocodeResp a).status_code ≠ 200
  · exact ⟨[], by rw [geocodeLive_transport c t h1]⟩
  · rw [not_not] at h1
    by_cases h2 : (env.geocodeResp a).status = "OK"
    · cases hres : (env.geocodeResp a).results with
      | nil => exact ⟨[], by rw [geocodeLive_ok_nil c t h1 h2 hres]⟩
      | cons rr rrest =>
        exact ⟨sleepEv t, by rw [geocodeLive_ok c t h1 h2 hres]; rfl⟩
    · by_cases h3 : (env.geocodeResp a).status = "ZERO_RESULTS"
          ∨ (env.geocodeResp a).status = "NOT_FOUND"
      · exact ⟨sleepEv t, by rw [geocodeLive_zero c t h1 h3]; rfl⟩
      · by_cases h4 : (env.geocodeResp a).status = "OVER_DAILY_LIMIT"
            ∨ (env.geocodeResp a).status = "OVER_QUERY_LIMIT"
            ∨ (env.geocodeResp a).status = "REQUEST_DENIED"
        · exact ⟨[], by rw [geocodeLive_quota c t h1 h4]⟩
        · exact ⟨[], by rw [geocodeLive_unexpected c t h1 h2 h3 h4]⟩

/-- The address cache entry is *settled*: if it is a found entry, it
carries a place id (so a later resolution will not re-fetch it). -/
def staleOk (c : Cache) (a : String) : Prop :=
  ∀ e : Coords, cfind c a = some (some e) → e.hasPid = true

/-- The geocode tier writes (at most) the address key. -/
theorem geocodeLive_onlykey {a : String} {env : Env} (c : Cache) (t : ℚ)
    {k : String} (hk : k ≠ a) :
    cfind (geocodeLive a env c t).2.1 k = cfind c k := by
  by_cases h1 : (env.geocodeResp a).status_code ≠ 200
  · rw [geocodeLive_transport c t h1]
  · rw [not_not] at h1
    by_cases h2 : (env.geocodeResp a).status = "OK"
    · cases hres : (env.geocodeResp a).results with
      | nil => rw [geocodeLive_ok_nil c t h1 h2 hres]
      | cons rr rrest =>
        rw [geocodeLive_ok c t h1 h2 hres]
        exact cfind_cinsert_ne c _ _ _ hk
    · by_cases h3 : (env.geocodeResp a).status = "ZERO_RESULTS"
          ∨ (env.geocodeResp a).status = "NOT_FOUND"
      · rw [geocodeLive_zero c t h1 h3]
        exact cfind_cinsert_ne c _ _ _ hk
      · by_cases h4 : (env.geocodeResp a).status = "OVER_DAILY_LIMIT"
            ∨ (env.geocodeResp a).status = "OVER_QUERY_LIMIT"
            ∨ (env.geocodeResp a).status = "REQUEST_DENIED"
        · rw [geocodeLive_quota c t h1 h4]
        · rw [geocodeLive_unexpected c t h1 h2 h3 h4]

theorem geocode_onlykey {a : String} {env : Env} (c : Cache) (t : ℚ)
    {k : String} (hk : k ≠ a) :
    cfind (geocode_address a env c t).2.1 k = cfind c k := by
  by_cases ha : a = ""
  · rw [ha, geocode_empty]
  · cases hc : cfind c a with
    | none => rw [geocode_miss env t ha hc]; exact geocodeLive_onlykey c t hk
    | some vv =>
      cases vv with
      | none => rw [geocode_hit_none env t ha hc]
      | some e =>
        cases hp : e.hasPid with
        | true => rw [geocode_hit_found env t ha hc hp]
        | false =>
          rw [geocode_stale env t ha hc hp]
          exact geocodeLive_onlykey c t hk

/-- Replaying a successful live geocode on its own output cache yields
the same outcome; it is silent whenever the written entry is settled. -/
theorem geocodeLive_replay {a : String} {env : Env} {c c' : Cache} {t : ℚ}
    {v : Option Coords} {ev : List Event} (ha : a ≠ "")
    (h : geocodeLive a env c t = (.ok v, c', ev)) :
    ∃ c2 ev2, geocode_address a env c' t = (.ok v, c2, ev2)
      ∧ (staleOk c' a → ev2 = []) := by
  by_cases h1 : (env.geocodeResp a).status_code ≠ 200
  · rw [geocodeLive_transport c t h1] at h
    simp only [Prod.mk.injEq] at h
    exact absurd h.1 (fun hh => Except.noConfusion hh)
  · rw [not_not] at h1
    by_cases h2 : (env.geocodeResp a).status = "OK"
    · cases hres : (env.geocodeResp a).results with
      | nil =>
        rw [geocodeLive_ok_nil c t h1 h2 hres] at h
        simp only [Prod.mk.injEq] at h
        exact absurd h.1 (fun hh => Except.noConfusion hh)
      | cons rr rrest =>
        rw [geocodeLive_ok c t h1 h2 hres] at h
        simp only [Prod.mk.injEq, Except.ok.injEq] at h
        obtain ⟨rfl, rfl, -⟩ := h
        cases hp : Coords.hasPid ⟨rr.lat, rr.lng, normPid rr.place_id⟩ with
        | true =>
          refine ⟨_, [], geocode_hit_found env t ha (cfind_cinsert_self c _ _) hp,
            fun _ => rfl⟩
        | false =>
          refine ⟨cinsert (cinsert c a (some ⟨rr.lat, rr.lng, normPid rr.place_id⟩)) a
              (some ⟨rr.lat, rr.lng, normPid rr.place_id⟩),
            [Event.live .geocode a] ++ sleepEv t, ?_, ?_⟩
          · rw [geocode_stale env t ha (cfind_cinsert_self c _ _) hp,
              geocodeLive_ok _ t h1 h2 hres]
          · intro hst
            have := hst _ (cfind_cinsert_self c _ _)
            rw [hp] at this
            cases this
    · by_cases h3 : (env.geocodeResp a).status = "ZERO_RESULTS"
          ∨ (env.geocodeResp a).status = "NOT_FOUND"
      · rw [geocodeLive_zero c t h1 h3] at h
        simp only [Prod.mk.injEq, Except.ok.injEq] at h
        obtain ⟨rfl, rfl, -⟩ := h
        exact ⟨_, [], geocode_hit_none env t ha (cfind_cinsert_self c _ _),
          fun _ => rfl⟩
      · by_cases h4 : (env.geocodeResp a).status = "OVER_DAILY_LIMIT"
            ∨ (env.geocodeResp a).status = "OVER_QUERY_LIMIT"
            ∨ (env.geocodeResp a).status = "REQUEST_DENIED"
        · rw [geocodeLive_quota c t h1 h4] at h
          simp only [Prod.mk.injEq] at h
          exact absurd h.1 (fun hh => Except.noConfusion hh)
        · rw [geocodeLive_unexpected c t h1 h2 h3 h4] at h
          simp only [Prod.mk.injEq] at h
          exact absurd h.1 (fun hh => Except.noConfusion hh)

/-- Replaying a non-raising `geocode_address` on its own output cache
yields the same outcome; silent when the entry is settled. -/
theorem geocode_replay {a : String} {env : Env} {c c' : Cache} {t : ℚ}
    {v : Option Coords} {ev : List Event}
    (h : geocode_address a env c t = (.ok v, c', ev)) :
    ∃ c2 ev2, geocode_address a env c' t = (.ok v, c2, ev2)
      ∧ (staleOk c' a → ev2 = []) := by
  by_cases ha : a = ""
  · subst ha
    rw [geocode_empty] at h
    simp only [Prod.mk.injEq, Except.ok.injEq] at h
    obtain ⟨rfl, rfl, -⟩ := h
    exact ⟨_, [], geocode_empty env c t, fun _ => rfl⟩
  · cases hc : cfind c a with
    | none =>
      rw [geocode_miss env t ha hc] at h
      exact geocodeLive_replay ha h
    | some vv =>
      cases vv with
      | none =>
        rw [geocode_hit_none env t ha hc] at h
        simp only [Prod.mk.injEq, Except.ok.injEq] at h
        obtain ⟨rfl, rfl, -⟩ := h
        exact ⟨_, [], geocode_hit_none env t ha hc, fun _ => rfl⟩
      | some e =>
        cases hp : e.hasPid with
        | true =>
          rw [geocode_hit_found env t ha hc hp] at h
          simp only [Prod.mk.injEq, Except.ok.injEq] at h
          obtain ⟨rfl, rfl, -⟩ := h
          exact ⟨_, [], geocode_hit_found env t ha hc hp, fun _ => rfl⟩
        | false =>
          rw [geocode_stale env t ha hc hp] at h
          exact geocodeLive_replay ha h

/-! ### Characterization lemmas for the per-record resolution -/

theorem resolve_record_found {qs : List String} {a : String} {env : Env}
    {cache c1 : Cache} {t : ℚ} {c0 : Coords} {ev : List Event}
    (h : try_queries qs env cache t = (some c0, c1, ev)) :
    resolve_record qs a env cache t = (.ok (some c0), c1, ev) := by
  simp [resolve_record, h]

theorem resolve_record_nores_noaddr {qs : List String} {env : Env}
    {cache c1 : Cache} {t : ℚ} {ev : List Event}
    (h : try_queries qs env cache t = (none, c1, ev)) :
    resolve_record qs "" env cache t = (.ok none, c1, ev) := by
  simp [resolve_record, h]

theorem resolve_record_nores {qs : List String} {a : String} {env : Env}
    {cache c1 : Cache} {t : ℚ} {ev : List Event}
    (h : try_queries qs env cache t = (none, c1, ev)) (ha : a ≠ "") :
    resolve_record qs a env cache t
      = ((geocode_address a env c1 t).1, (geocode_address a env c1 t).2.1,
         ev ++ (geocode_address a env c1 t).2.2) := by
  simp [resolve_record, h, ha]

/-- An address shorter than the `place:` marker cannot be a place key. -/
theorem not_place_key_short {a : String} (h : a.length < 6) :
    ∀ q', a ≠ "place:" ++ q' := by
  intro q' he
  have hl := congrArg String.length he
  rw [String.length_append] at hl
  have h6 : ("place:" : String).length = 6 := rfl
  rw [h6] at hl
  omega

theorem normPid_of_ne {p : Option String} (h : p ≠ some "") : normPid p = p := by
  cases p with
  | none => rfl
  | some s =>
    have hs : s ≠ "" := fun hh => h (by rw [hh])
    simp [normPid, hs]

/-- Claim C1: for every non-empty address whose key is not satisfied
from the cache, `geocode_address` classifies the provider response
exactly by its transport and provider status: transport ≠ 200 raises a
transport error with no cache write; provider `OK` returns `Found`
built from the first result (place id attached when present) and caches
it; `ZERO_RESULTS`/`NOT_FOUND` cache the negative marker and return
`NotFound`; the quota statuses raise with the cache unmodified; any
other status raises with the cache unmodified — and an error outcome is
always one of transport/quota/unexpected, with no cache write.
(Stated for well-formed provider responses: `OK` carries at least one
result, and place ids are never the empty string.) -/
theorem claim1_geocode_classification (a : String) (env : Env) (cache : Cache)
    (t : ℚ) (ha : a ≠ "")
    (hmiss : cfind cache a = none
      ∨ ∃ e, cfind cache a = some (some e) ∧ e.hasPid = false)
    (hwf : (env.geocodeResp a).status = "OK" → (env.geocodeResp a).results ≠ [])
    (hwf2 : ∀ rr ∈ (env.geocodeResp a).results, rr.place_id ≠ some "") :
    ((env.geocodeResp a).status_code ≠ 200 →
       geocode_address a env cache t
         = (.error (.transport (env.geocodeResp a).status_code), cache,
            [Event.live .geocode a]))
  ∧ (∀ rr rrest, (env.geocodeResp a).status_code = 200 →
       (env.geocodeResp a).status = "OK" →
       (env.geocodeResp a).results = rr :: rrest →
       geocode_address a env cache t
         = (.ok (some ⟨rr.lat, rr.lng, rr.place_id⟩),
            cinsert cache a (some ⟨rr.lat, rr.lng, rr.place_id⟩),
            [Event.live .geocode a] ++ sleepEv t))
  ∧ ((env.geocodeResp a).status_code = 200 →
       ((env.geocodeResp a).status = "ZERO_RESULTS"
         ∨ (env.geocodeResp a).status = "NOT_FOUND") →
       geocode_address a env cache t
         = (.ok none, cinsert cache a none, [Event.live .geocode a] ++ sleepEv t))
  ∧ ((env.geocodeResp a).status_code = 200 →
       ((env.geocodeResp a).status = "OVER_DAILY_LIMIT"
         ∨ (env.geocodeResp a).status = "OVER_QUERY_LIMIT"
         ∨ (env.geocodeResp a).status = "REQUEST_DENIED") →
       geocode_address a env cache t
         = (.error (.quota (env.geocodeResp a).status
              (env.geocodeResp a).error_message), cache, [Event.live .geocode a]))
  ∧ ((env.geocodeResp a).status_code = 200 →
       (env.geocodeResp a).status ≠ "OK" →
       ¬((env.geocodeResp a).status = "ZERO_RESULTS"
         ∨ (env.geocodeResp a).status = "NOT_FOUND") →
       ¬((env.geocodeResp a).status = "OVER_DAILY_LIMIT"
         ∨ (env.geocodeResp a).status = "OVER_QUERY_LIMIT"
         ∨ (env.geocodeResp a).status = "REQUEST_DENIED") →
       geocode_address a env cache t
         = (.error (.unexpected (env.geocodeResp a).status
              (env.geocodeResp a).error_message), cache, [Event.live .geocode a]))
  ∧ (∀ err c' ev, geocode_address a env cache t = (.error err, c', ev) →
       c' = cache ∧ ((∃ code, err = .transport code)
         ∨ (∃ s m, err = .quota s m) ∨ (∃ s m, err = .unexpected s m))) := by
  have hlive : geocode_address a env cache t = geocodeLive a env cache t := by
    rcases hmiss with hc | ⟨e, hc, hp⟩
    · exact geocode_miss env t ha hc
    · exact geocode_stale env t ha hc hp
  rw [hlive]
  refine ⟨?_, ?_, ?_, ?_, ?_, ?_⟩
  · intro h1
    exact geocodeLive_transport cache t h1
  · intro rr rrest h1 h2 hres
    have hpid : normPid rr.place_id = rr.place_id :=
      normPid_of_ne (hwf2 rr (by rw [hres]; exact List.mem_cons_self _ _))
    rw [geocodeLive_ok cache t h1 h2 hres, hpid]
  · intro h1 h3
    exact geocodeLive_zero cache t h1 h3
  · intro h1 h4
    exact geocodeLive_quota cache t h1 h4
  · intro h1 h2 h3 h4
    exact geocodeLive_unexpected cache t h1 h2 h3 h4
  · intro err c' ev herr
    by_cases h1 : (env.geocodeResp a).status_code ≠ 200
    · rw [geocodeLive_transport cache t h1] at herr
      simp only [Prod.mk.injEq, Except.error.injEq] at herr
      exact ⟨herr.2.1.symm, Or.inl ⟨_, herr.1.symm⟩⟩
    · rw [not_not] at h1
      by_cases h2 : (env.geocodeResp a).status = "OK"
      · cases hres : (env.geocodeResp a).results with
        | nil => exact absurd hres (hwf h2)
        | cons rr rrest =>
          rw [geocodeLive_ok cache t h1 h2 hres] at herr
          simp only [Prod.mk.injEq] at herr
          exact absurd herr.1 (fun hh => Except.noConfusion hh)
      · by_cases h3 : (env.geocodeResp a).status = "ZERO_RESULTS"
            ∨ (env.geocodeResp a).status = "NOT_FOUND"
        · rw [geocodeLive_zero cache t h1 h3] at herr
          simp only [Prod.mk.injEq] at herr
          exact absurd herr.1 (fun hh => Except.noConfusion hh)
        · by_cases h4 : (env.geocodeResp a).status = "OVER_DAILY_LIMIT"
              ∨ (env.geocodeResp a).status = "OVER_QUERY_LIMIT"
              ∨ (env.geocodeResp a).status = "REQUEST_DENIED"
          · rw [geocodeLive_quota cache t h1 h4] at herr
            simp only [Prod.mk.injEq, Except.error.injEq] at herr
            exact ⟨herr.2.1.symm, Or.inr (Or.inl ⟨_, _, herr.1.symm⟩)⟩
          · rw [geocodeLive_unexpected cache t h1 h2 h3 h4] at herr
            simp only [Prod.mk.injEq, Except.error.injEq] at herr
            exact ⟨herr.2.1.symm, Or.inr (Or.inr ⟨_, _, herr.1.symm⟩)⟩

/-- Oracle: both place strategies raise; geocoding answers `OK` with
coordinates `(3, 4)` and place id `"abc123"`. -/
def envGeoOkPid : Env :=
  ⟨fun _ => .error (), fun _ => .error (),
   fun _ => ⟨200, "OK", [⟨3, 4, some "abc123"⟩], ""⟩⟩

/-- Witness for C1: on an empty cache, a non-empty address and an `OK`
response, `geocode_address` returns the first result and caches it. -/
theorem claim1_witness :
    geocode_address "addr" envGeoOkPid [] 1
      = (.ok (some ⟨3, 4, some "abc123"⟩),
         [("addr", some ⟨3, 4, some "abc123"⟩)],
         [Event.live .geocode "addr", Event.sleep]) := by
  have h := (claim1_geocode_classification "addr" envGeoOkPid [] 1
    (by decide) (Or.inl rfl) (fun _ => by decide) (by decide)).2.1
    ⟨3, 4, some "abc123"⟩ [] rfl rfl rfl
  rw [h]
  decide

/-- Claim C2 counterexample: with the address cached as `Found` without
a place id and a working provider, `geocode_address` does *not* return
the cached coordinates and it *does* make a live call — the cached
`(1, 2)` entry is refreshed from the provider instead of returned. -/
theorem claim2_counterexample :
    (geocode_address "addr" envGeoOkPid [("addr", some ⟨1, 2, none⟩)] 1).1
        ≠ .ok (some ⟨1, 2, none⟩)
  ∧ Event.live .geocode "addr"
      ∈ (geocode_address "addr" envGeoOkPid [("addr", some ⟨1, 2, none⟩)] 1).2.2 := by
  decide

/-- Claim C2 (amended): a cached `Found`-without-place-id entry is
returned with no live call by `find_place` (place-key namespace), but
`geocode_address` (address namespace) treats it as stale and performs a
live geocode call instead of returning it. -/
theorem claim2_stale_entry (q a : String) (env : Env) (cp cg : Cache) (t : ℚ)
    (e1 e2 : Coords) (hq : q ≠ "")
    (hcp : cfind cp ("place:" ++ q) = some (some e1)) (_hp1 : e1.hasPid = false)
    (ha : a ≠ "") (hcg : cfind cg a = some (some e2)) (hp2 : e2.hasPid = false) :
    find_place q env cp t = (some e1, cp, [])
  ∧ geocode_address a env cg t = geocodeLive a env cg t
  ∧ ∃ tail, (geocode_address a env cg t).2.2 = Event.live .geocode a :: tail := by
  refine ⟨find_place_hit env t hq hcp, geocode_stale env t ha hcg hp2, ?_⟩
  rw [geocode_stale env t ha hcg hp2]
  exact geocodeLive_events a env cg t

/-- Witness for the amended C2 at concrete inputs. -/
theorem claim2_witness :
    find_place "q" envGeoOkPid [("place:q", some ⟨1, 2, none⟩)] 1
      = (some ⟨1, 2, none⟩, [("place:q", some ⟨1, 2, none⟩)], [])
  ∧ ∃ tail, (geocode_address "addr" envGeoOkPid [("addr", some ⟨1, 2, none⟩)] 1).2.2
      = Event.live .geocode "addr" :: tail := by
  have h := claim2_stale_entry "q" "addr" envGeoOkPid
    [("place:q", some ⟨1, 2, none⟩)] [("addr", some ⟨1, 2, none⟩)] 1
    ⟨1, 2, none⟩ ⟨1, 2, none⟩ (by decide) (by decide) (by decide)
    (by decide) (by decide) (by decide)
  exact ⟨h.1, h.2.2⟩

/-- Oracle: both place strategies raise; geocoding answers `OK` with
coordinates `(3, 4)` and no place id. -/
def envGeoOkNoPid : Env :=
  ⟨fun _ => .error (), fun _ => .error (),
   fun _ => ⟨200, "OK", [⟨3, 4, none⟩], ""⟩⟩

/-- Claim C3 counterexample: resolving `([], "a")` twice with the cache
left warm by the first (non-raising) resolution is *not* free of live
calls: the first run caches `Found` without a place id, so the second
run re-issues the live geocode call. -/
theorem claim3_counterexample :
    (resolve_record [] "a" envGeoOkNoPid [] 1).1 = .ok (some ⟨3, 4, none⟩)
  ∧ Event.live .geocode "a"
      ∈ (resolve_record [] "a" envGeoOkNoPid
          (resolve_record [] "a" envGeoOkNoPid [] 1).2.1 1).2.2 := by
  decide

/-- Claim C3 (amended): under the place-key namespace invariant (the
address is not itself a `place:` key), re-resolving the same
`(candidates, address)` pair on the warm cache returns the identical
outcome, and makes zero live calls provided the warmed address entry is
not a `Found`-without-place-id entry (that one case re-issues the
geocode call, still returning the identical outcome under the unchanged
provider response). -/
theorem claim3_warm_idempotence (qs : List String) (a : String) (env : Env)
    (c0 : Cache) (t : ℚ) (v : Option Coords) (c1 : Cache) (ev1 : List Event)
    (hkey : ∀ q', a ≠ "place:" ++ q')
    (hrun : resolve_record qs a env c0 t = (.ok v, c1, ev1)) :
    ∃ c2 ev2, resolve_record qs a env c1 t = (.ok v, c2, ev2)
      ∧ (staleOk c1 a → ev2 = []) := by
  rcases htr : try_queries qs env c0 t with ⟨r, cA, evA⟩
  cases r with
  | some cc =>
    rw [resolve_record_found htr] at hrun
    simp only [Prod.mk.injEq, Except.ok.injEq] at hrun
    obtain ⟨rfl, rfl, -⟩ := hrun
    exact ⟨_, [], resolve_record_found (try_queries_replay htr), fun _ => rfl⟩
  | none =>
    by_cases ha : a = ""
    · subst ha
      rw [resolve_record_nores_noaddr htr] at hrun
      simp only [Prod.mk.injEq, Except.ok.injEq] at hrun
      obtain ⟨rfl, rfl, -⟩ := hrun
      exact ⟨_, [], resolve_record_nores_noaddr (try_queries_replay htr),
        fun _ => rfl⟩
    · rw [resolve_record_nores htr ha] at hrun
      rcases hg : geocode_address a env cA t with ⟨gres, cG, evG⟩
      rw [hg] at hrun
      simp only [Prod.mk.injEq] at hrun
      obtain ⟨hres, hcg, -⟩ := hrun
      rw [hcg] at hg
      have hg' : geocode_address a env cA t = (.ok v, c1, evG) := by
        rw [hg, hres]
      have hagree : ∀ q', cfind cA ("place:" ++ q') = cfind c1 ("place:" ++ q') := by
        intro q'
        have := @geocode_onlykey a env cA t ("place:" ++ q')
          (fun hh => hkey q' hh.symm)
        rw [hg'] at this
        exact this.symm
      have htrd := try_queries_agree hagree (try_queries_replay htr)
      obtain ⟨c2, ev2, hgeo2, hstale⟩ := geocode_replay hg'
      refine ⟨c2, ev2, ?_, hstale⟩
      rw [resolve_record_nores htrd ha, hgeo2]
      rfl

/-- Oracle: the structured strategy succeeds with id `"places/xyz"`. -/
def envPlaceNewOk : Env :=
  ⟨fun _ => .ok ⟨200, [⟨some ⟨1, 2⟩, "places/xyz"⟩]⟩, fun _ => .error (),
   fun _ => ⟨500, "", [], ""⟩⟩

/-- Witness for the amended C3: a concrete warm re-resolution. -/
theorem claim3_witness :
    ∃ c2 ev2, resolve_record ["q"] "addr" envPlaceNewOk
        [("place:q", some ⟨1, 2, some "xyz"⟩)] 1
        = (.ok (some ⟨1, 2, some "xyz"⟩), c2, ev2)
      ∧ (staleOk [("place:q", some ⟨1, 2, some "xyz"⟩)] "addr" → ev2 = []) := by
  exact claim3_warm_idempotence ["q"] "addr" envPlaceNewOk [] 1
    (some ⟨1, 2, some "xyz"⟩) [("place:q", some ⟨1, 2, some "xyz"⟩)]
    [Event.live .placeNew "q", Event.sleep]
    (not_place_key_short (by decide)) (by decide)

/-- Every event a structured-strategy call can emit is either its own
live-call record or a sleep. -/
theorem runNew_events_mem (env : Env) (q : String) (t : ℚ) :
    ∀ e ∈ (runNew env q t).2, e = Event.live .placeNew q ∨ e = Event.sleep := by
  intro e he
  unfold runNew at he
  cases hrsp : env.newResp q with
  | error u => rw [hrsp] at he; simp at he; exact Or.inl he
  | ok resp =>
    rw [hrsp] at he
    obtain ⟨sc, places⟩ := resp
    unfold find_place_new at he
    by_cases h1 : sc ≠ 200
    · simp [h1] at he; exact Or.inl he
    · cases places with
      | nil => simp [h1] at he; exact Or.inl he
      | cons p rest =>
        obtain ⟨plo, pidd⟩ := p
        cases plo with
        | none => simp [h1] at he; exact Or.inl he
        | some loc =>
          by_cases hp : stripPlaces pidd = ""
          · simp [h1, hp] at he; exact Or.inl he
          · simp [h1, hp, sleepEv] at he
            rcases he with he | he
            · exact Or.inl he
            · by_cases ht : t = 0
              · simp [ht] at he
              · simp [ht] at he; exact Or.inr he

/-- Every event a legacy-strategy call can emit is either its own
live-call record or a sleep. -/
theorem runLegacy_events_mem (env : Env) (q : String) (t : ℚ) :
    ∀ e ∈ (runLegacy env q t).2, e = Event.live .placeLegacy q ∨ e = Event.sleep := by
  intro e he
  unfold runLegacy at he
  cases hrsp : env.legacyResp q with
  | error u => rw [hrsp] at he; simp at he; exact Or.inl he
  | ok resp =>
    rw [hrsp] at he
    obtain ⟨sc, st, cands⟩ := resp
    unfold find_place_legacy at he
    by_cases h1 : sc ≠ 200
    · simp [h1] at he; exact Or.inl he
    · by_cases h2 : st = "OK"
      · cases cands with
        | nil => simp [h1, h2] at he; exact Or.inl he
        | cons cand rest =>
          simp [h1, h2, sleepEv] at he
          rcases he with he | he
          · exact Or.inl he
          · by_cases ht : t = 0
            · simp [ht] at he
            · simp [ht] at he; exact Or.inr he
      · simp [h1, h2] at he; exact Or.inl he

/-- Claim C4: for a non-empty, uncached candidate at the head of the
list, the structured strategy is invoked first (the event trace starts
with its live call); on success the result is cached under that
candidate's place key, the loop returns it immediately, and no other
candidate is ever queried (every live event of the trace names this
candidate). -/
theorem claim4_candidate_precedence (q : String) (rest : List String)
    (env : Env) (c : Cache) (t : ℚ) (hq : q ≠ "")
    (hmiss : cfind c ("place:" ++ q) = none) :
    (∃ evtail, (find_place q env c t).2.2 = Event.live .placeNew q :: evtail)
  ∧ (∀ r c' ev, find_place q env c t = (some r, c', ev) →
       try_queries (q :: rest) env c t = (some r, c', ev)
       ∧ cfind c' ("place:" ++ q) = some (some r)
       ∧ ∀ k qq, Event.live k qq ∈ ev → qq = q) := by
  constructor
  · have hhead := runNew_events env q t
    cases hl : (runNew env q t).2 with
    | nil => rw [hl] at hhead; cases hhead
    | cons e0 tail =>
      rw [hl] at hhead
      simp only [List.head?] at hhead
      cases hhead
      cases hr : (runNew env q t).1 with
      | some r0 => exact ⟨tail, by rw [find_place_miss_new hq hmiss hr, hl]⟩
      | none =>
        exact ⟨tail ++ (runLegacy env q t).2,
          by rw [find_place_miss_legacy hq hmiss hr, hl]; rfl⟩
  · intro r c' ev h
    refine ⟨try_queries_cons_some h, find_place_key hq h, ?_⟩
    intro k qq hin
    cases hr : (runNew env q t).1 with
    | some r0 =>
      rw [find_place_miss_new hq hmiss hr] at h
      simp only [Prod.mk.injEq] at h
      rw [← h.2.2] at hin
      rcases runNew_events_mem env q t _ hin with he | he
      · exact (Event.live.inj he).2
      · cases he
    | none =>
      rw [find_place_miss_legacy hq hmiss hr] at h
      simp only [Prod.mk.injEq] at h
      rw [← h.2.2] at hin
      rcases List.mem_append.mp hin with hin' | hin'
      · rcases runNew_events_mem env q t _ hin' with he | he
        · exact (Event.live.inj he).2
        · cases he
      · rcases runLegacy_events_mem env q t _ hin' with he | he
        · exact (Event.live.inj he).2
        · cases he

/-- Oracle: the structured strategy yields no candidates but the legacy
strategy succeeds — for every query. -/
def envLegacyOnly : Env :=
  ⟨fun _ => .ok ⟨200, []⟩, fun _ => .ok ⟨200, "OK", [⟨5, 6, "pidA"⟩]⟩,
   fun _ => ⟨500, "", [], ""⟩⟩

/-- Witness for C4: with candidates `["A", "B"]` and only the legacy
strategy succeeding for `"A"`, the loop returns `"A"`'s result, caches
it under `place:A`, and every live call names `"A"` (so `"B"` is never
queried). -/
theorem claim4_witness :
    try_queries ["A", "B"] envLegacyOnly [] 1
      = (some ⟨5, 6, some "pidA"⟩, [("place:A", some ⟨5, 6, some "pidA"⟩)],
         [Event.live .placeNew "A", Event.live .placeLegacy "A", Event.sleep])
  ∧ cfind [("place:A", some ⟨5, 6, some "pidA"⟩)] ("place:" ++ "A")
      = some (some ⟨5, 6, some "pidA"⟩)
  ∧ ∀ k qq, Event.live k qq
      ∈ [Event.live .placeNew "A", Event.live .placeLegacy "A", Event.sleep]
      → qq = "A" := by
  exact (claim4_candidate_precedence "A" ["B"] envLegacyOnly [] 1
    (by decide) (by decide)).2 ⟨5, 6, some "pidA"⟩
    [("place:A", some ⟨5, 6, some "pidA"⟩)]
    [Event.live .placeNew "A", Event.live .placeLegacy "A", Event.sleep]
    (by decide)

/-- Oracle: both place strategies answer a live no-result (transport
success, empty candidate lists). -/
def envPlaceMiss : Env :=
  ⟨fun _ => .ok ⟨200, []⟩, fun _ => .ok ⟨200, "ZERO_RESULTS", []⟩,
   fun _ => ⟨500, "", [], ""⟩⟩

/-- Claim C5 counterexample: with a non-zero throttle, an uncached query
whose two live place-search calls both yield no result produces *no*
throttle sleep at all — the delay is not invoked after live no-result
place-search calls. -/
theorem claim5_counterexample :
    (find_place "q" envPlaceMiss [] 1).2.2
      = [Event.live .placeNew "q", Event.live .placeLegacy "q"]
  ∧ Event.sleep ∉ (find_place "q" envPlaceMiss [] 1).2.2
  ∧ (1 : ℚ) ≠ 0 := by
  decide

/-- Claim C5 (amended): the throttle sleep follows each *successful*
live place-search call and each non-raising live geocode call (found or
zero-results); a live place-search call that yields no result, and a
raising geocode call, do not sleep; cache hits emit no events at all;
`seconds == 0` disables the sleep everywhere. -/
theorem claim5_throttle_discipline (q a : String) (env : Env)
    (resp : NewResp) (lresp : LegacyResp) (cache : Cache) (t : ℚ) :
    (∀ r ev, find_place_new q resp t = (some r, ev) →
       ev = [Event.live .placeNew q] ++ sleepEv t)
  ∧ (∀ ev, find_place_new q resp t = (none, ev) → ev = [Event.live .placeNew q])
  ∧ (∀ r ev, find_place_legacy q lresp t = (some r, ev) →
       ev = [Event.live .placeLegacy q] ++ sleepEv t)
  ∧ (∀ ev, find_place_legacy q lresp t = (none, ev) →
       ev = [Event.live .placeLegacy q])
  ∧ (∀ v, q ≠ "" → cfind cache ("place:" ++ q) = some v →
       find_place q env cache t = (v, cache, []))
  ∧ (∀ v c' ev, geocodeLive a env cache t = (.ok v, c', ev) →
       ev = [Event.live .geocode a] ++ sleepEv t)
  ∧ (∀ er c' ev, geocodeLive a env cache t = (.error er, c', ev) →
       ev = [Event.live .geocode a])
  ∧ (a ≠ "" → cfind cache a = some none →
       geocode_address a env cache t = (.ok none, cache, []))
  ∧ (∀ e2, a ≠ "" → cfind cache a = some (some e2) → e2.hasPid = true →
       geocode_address a env cache t = (.ok (some e2), cache, []))
  ∧ sleepEv 0 = [] := by
  have hnew : ∀ r ev, find_place_new q resp t = (r, ev) →
      (r.isSome → ev = [Event.live .placeNew q] ++ sleepEv t)
      ∧ (r = none → ev = [Event.live .placeNew q]) := by
    intro r ev h
    by_cases h1 : resp.status_code ≠ 200
    · rw [find_place_new_transport h1] at h
      simp only [Prod.mk.injEq] at h
      exact ⟨fun hs => (by rw [← h.1] at hs; simp at hs), fun _ => h.2.symm⟩
    · rw [not_not] at h1
      cases hpl : resp.places with
      | nil =>
        rw [find_place_new_noplaces h1 hpl] at h
        simp only [Prod.mk.injEq] at h
        exact ⟨fun hs => (by rw [← h.1] at hs; simp at hs), fun _ => h.2.symm⟩
      | cons p prest =>
        cases hl : p.location with
        | none =>
          rw [find_place_new_noloc h1 hpl hl] at h
          simp only [Prod.mk.injEq] at h
          exact ⟨fun hs => (by rw [← h.1] at hs; simp at hs), fun _ => h.2.symm⟩
        | some loc =>
          by_cases hp : stripPlaces p.id = ""
          · rw [find_place_new_nopid h1 hpl hl hp] at h
            simp only [Prod.mk.injEq] at h
            exact ⟨fun hs => (by rw [← h.1] at hs; simp at hs), fun _ => h.2.symm⟩
          · rw [find_place_new_success h1 hpl hl hp] at h
            simp only [Prod.mk.injEq] at h
            exact ⟨fun _ => h.2.symm,
              fun hn => (by rw [hn] at h; exact Option.noConfusion h.1)⟩
  have hleg : ∀ r ev, find_place_legacy q lresp t = (r, ev) →
      (r.isSome → ev = [Event.live .placeLegacy q] ++ sleepEv t)
      ∧ (r = none → ev = [Event.live .placeLegacy q]) := by
    intro r ev h
    by_cases h1 : lresp.status_code ≠ 200
    · rw [find_place_legacy_transport h1] at h
      simp only [Prod.mk.injEq] at h
      exact ⟨fun hs => (by rw [← h.1] at hs; simp at hs), fun _ => h.2.symm⟩
    · rw [not_not] at h1
      by_cases h2 : lresp.status = "OK"
      · cases hpl : lresp.candidates with
        | nil =>
          rw [find_place_legacy_nocands h1 h2 hpl] at h
          simp only [Prod.mk.injEq] at h
          exact ⟨fun hs => (by rw [← h.1] at hs; simp at hs), fun _ => h.2.symm⟩
        | cons cand crest =>
          rw [find_place_legacy_success h1 h2 hpl] at h
          simp only [Prod.mk.injEq] at h
          exact ⟨fun _ => h.2.symm,
            fun hn => (by rw [hn] at h; exact Option.noConfusion h.1)⟩
      · rw [find_place_legacy_notok h1 h2] at h
        simp only [Prod.mk.injEq] at h
        exact ⟨fun hs => (by rw [← h.1] at hs; simp at hs), fun _ => h.2.symm⟩
  have hgeo : ∀ res c' ev, geocodeLive a env cache t = (res, c', ev) →
      ((∃ v, res = .ok v) → ev = [Event.live .geocode a] ++ sleepEv t)
      ∧ ((∃ er, res = .error er) → ev = [Event.live .geocode a]) := by
    intro res c' ev h
    by_cases h1 : (env.geocodeResp a).status_code ≠ 200
    · rw [geocodeLive_transport cache t h1] at h
      simp only [Prod.mk.injEq] at h
      refine ⟨fun ⟨v, hv⟩ => ?_, fun _ => h.2.2.symm⟩
      rw [hv] at h
      exact absurd h.1 (fun hh => Except.noConfusion hh)
    · rw [not_not] at h1
      by_cases h2 : (env.geocodeResp a).status = "OK"
      · cases hres : (env.geocodeResp a).results with
        | nil =>
          rw [geocodeLive_ok_nil cache t h1 h2 hres] at h
          simp only [Prod.mk.injEq] at h
          refine ⟨fun ⟨v, hv⟩ => ?_, fun _ => h.2.2.symm⟩
          rw [hv] at h
          exact absurd h.1 (fun hh => Except.noConfusion hh)
        | cons rr rrest =>
          rw [geocodeLive_ok cache t h1 h2 hres] at h
          simp only [Prod.mk.injEq] at h
          refine ⟨fun _ => h.2.2.symm, fun ⟨er, her⟩ => ?_⟩
          rw [her] at h
          exact absurd h.1 (fun hh => Except.noConfusion hh)
      · by_cases h3 : (env.geocodeResp a).status = "ZERO_RESULTS"
            ∨ (env.geocodeResp a).status = "NOT_FOUND"
        · rw [geocodeLive_zero cache t h1 h3] at h
          simp only [Prod.mk.injEq] at h
          refine ⟨fun _ => h.2.2.symm, fun ⟨er, her⟩ => ?_⟩
          rw [her] at h
          exact absurd h.1 (fun hh => Except.noConfusion hh)
        · by_cases h4 : (env.geocodeResp a).status = "OVER_DAILY_LIMIT"
              ∨ (env.geocodeResp a).status = "OVER_QUERY_LIMIT"
              ∨ (env.geocodeResp a).status = "REQUEST_DENIED"
          · rw [geocodeLive_quota cache t h1 h4] at h
            simp only [Prod.mk.injEq] at h
            refine ⟨fun ⟨v, hv⟩ => ?_, fun _ => h.2.2.symm⟩
            rw [hv] at h
            exact absurd h.1 (fun hh => Except.noConfusion hh)
          · rw [geocodeLive_unexpected cache t h1 h2 h3 h4] at h
            simp only [Prod.mk.injEq] at h
            refine ⟨fun ⟨v, hv⟩ => ?_, fun _ => h.2.2.symm⟩
            rw [hv] at h
            exact absurd h.1 (fun hh => Except.noConfusion hh)
  refine ⟨fun r ev h => (hnew (some r) ev h).1 rfl,
    fun ev h => (hnew none ev h).2 rfl,
    fun r ev h => (hleg (some r) ev h).1 rfl,
    fun ev h => (hleg none ev h).2 rfl,
    fun v hq hc => find_place_hit env t hq hc,
    fun v c' ev h => (hgeo _ c' ev h).1 ⟨v, rfl⟩,
    fun er c' ev h => (hgeo _ c' ev h).2 ⟨er, rfl⟩,
    fun ha hc => geocode_hit_none env t ha hc,
    fun e2 ha hc hp => geocode_hit_found env t ha hc hp,
    by simp [sleepEv]⟩

/-- Witness for the amended C5: a successful structured call sleeps
(throttle 1), and throttle 0 is a no-op. -/
theorem claim5_witness :
    ([Event.live .placeNew "q", Event.sleep] : List Event)
      = [Event.live .placeNew "q"] ++ sleepEv 1
  ∧ sleepEv 0 = [] := by
  have h := claim5_throttle_discipline "q" "a" envPlaceMiss
    ⟨200, [⟨some ⟨1, 2⟩, "X"⟩]⟩ ⟨200, "OK", []⟩ [] 1
  exact ⟨h.1 ⟨1, 2, some "X"⟩ [Event.live .placeNew "q", Event.sleep] (by decide),
    by simp [sleepEv]⟩

/-- Claim C6: a lookup key recorded as the negative marker (`None`) —
in either namespace — resolves to `NotFound` with no live call and no
cache change: `find_place` on a place key cached `None`, and
`geocode_address` on an address cached `None`, both return immediately
with an empty event trace. -/
theorem claim6_negative_caching (q a : String) (env : Env) (cp cg : Cache)
    (t : ℚ) (hq : cfind cp ("place:" ++ q) = some none)
    (ha : cfind cg a = some none) :
    find_place q env cp t = (none, cp, [])
  ∧ geocode_address a env cg t = (.ok none, cg, []) := by
  constructor
  · by_cases hq0 : q = ""
    · rw [hq0]
      exact find_place_empty env cp t
    · exact find_place_hit env t hq0 hq
  · by_cases ha0 : a = ""
    · rw [ha0]
      exact geocode_empty env cg t
    · exact geocode_hit_none env t ha0 ha

/-- Witness for C6 at concrete inputs. -/
theorem claim6_witness :
    find_place "x" envGeoOkPid [("place:x", none), ("y", none)] 1
      = (none, [("place:x", none), ("y", none)], [])
  ∧ geocode_address "y" envGeoOkPid [("place:x", none), ("y", none)] 1
      = (.ok none, [("place:x", none), ("y", none)], []) := by
  exact claim6_negative_caching "x" "y" envGeoOkPid
    [("place:x", none), ("y", none)] [("place:x", none), ("y", none)] 1
    (by decide) (by decide)

/-- Claim C7 counterexample: on identifier `"places/abcplaces/def"` the
code removes *every* occurrence of `"places/"`, returning `"abcdef"` —
not `"abcplaces/def"`, which is what stripping the prefix from the
front while leaving the rest unchanged would produce. -/
theorem claim7_counterexample :
    (find_place_new "q" ⟨200, [⟨some ⟨1, 2⟩, "places/abcplaces/def"⟩]⟩ 0).1
      = some ⟨1, 2, some "abcdef"⟩
  ∧ ("abcdef" : String) ≠ "abcplaces/def" := by
  decide

/-- Claim C7 (amended): the structured strategy treats a non-success
transport status as no-result; on success it takes the first candidate
only, accepting it only when it has a location and an identifier that
is non-empty after normalization — where normalization removes every
occurrence of the `"places/"` resource prefix (Python `str.replace`),
not just a leading one; all rejections return the no-result signal. -/
theorem claim7_structured_search (q : String) (resp : NewResp) (t : ℚ) :
    (resp.status_code ≠ 200 →
       find_place_new q resp t = (none, [Event.live .placeNew q]))
  ∧ (resp.status_code = 200 → resp.places = [] →
       find_place_new q resp t = (none, [Event.live .placeNew q]))
  ∧ (∀ p prest, resp.status_code = 200 → resp.places = p :: prest →
       (p.location = none →
          find_place_new q resp t = (none, [Event.live .placeNew q]))
       ∧ (stripPlaces p.id = "" → (find_place_new q resp t).1 = none)
       ∧ (∀ loc, p.location = some loc → stripPlaces p.id ≠ "" →
            find_place_new q resp t
              = (some ⟨loc.latitude, loc.longitude, some (stripPlaces p.id)⟩,
                 [Event.live .placeNew q] ++ sleepEv t))) := by
  refine ⟨find_place_new_transport, find_place_new_noplaces, ?_⟩
  intro p prest h1 h2
  refine ⟨fun h3 => find_place_new_noloc h1 h2 h3, fun h4 => ?_,
    fun loc h3 h4 => find_place_new_success h1 h2 h3 h4⟩
  cases hl : p.location with
  | none => rw [find_place_new_noloc h1 h2 hl]
  | some loc => rw [find_place_new_nopid h1 h2 hl h4]

/-- Witness for the amended C7: a concrete accepted candidate with the
resource prefix removed. -/
theorem claim7_witness :
    find_place_new "q" ⟨200, [⟨some ⟨1, 2⟩, "places/xyz"⟩]⟩ 1
      = (some ⟨1, 2, some "xyz"⟩, [Event.live .placeNew "q", Event.sleep]) := by
  have h := ((claim7_structured_search "q" ⟨200, [⟨some ⟨1, 2⟩, "places/xyz"⟩]⟩ 1).2.2
    ⟨some ⟨1, 2⟩, "places/xyz"⟩ [] rfl rfl).2.2 ⟨1, 2⟩ rfl (by decide)
  rw [h]
  decide

/-- A well-formed raw cache entry as the orchestrator writes it:
numeric `lat` and `lng` present, and any place id a non-empty string. -/
def goodEntry : Option RawCoord → Prop
  | none => True
  | some v => v.lat.isSome = true ∧ v.lng.isSome = true ∧ v.place_id ≠ some ""

instance goodEntry.decide : (o : Option RawCoord) → Decidable (goodEntry o)
  | none => .isTrue trivial
  | some v => by unfold goodEntry; infer_instance

/-- A raw cache populated only through the orchestrator. -/
def goodRaw (x : RawCache) : Prop := ∀ p ∈ x, goodEntry p.2

instance goodRaw.decide (x : RawCache) : Decidable (goodRaw x) := by
  unfold goodRaw
  infer_instance

/-- Claim C8: a cache mapping populated only through the orchestrator
round-trips: loading it succeeds and saving the loaded cache reproduces
the original mapping exactly (`Found` entries losslessly, every
not-found entry as the single `null` form). -/
theorem claim8_round_trip (x : RawCache) (hx : goodRaw x) :
    ∃ c, load_cache x = .ok c ∧ save_cache c = x := by
  induction x with
  | nil => exact ⟨[], rfl, rfl⟩
  | cons p rest ih =>
    have hrest : goodRaw rest := fun p' hp' => hx p' (List.mem_cons_of_mem _ hp')
    obtain ⟨c, hc, hs⟩ := ih hrest
    rcases p with ⟨k, vo⟩
    have hs' : List.map (fun p => (p.1, Option.map serialize_entry p.2)) c = rest := hs
    cases vo with
    | none =>
      refine ⟨(k, none) :: c, ?_, ?_⟩
      · simp [load_cache, hc, Except.map]
      · simp [save_cache, hs']
    | some v =>
      have hgood := hx (k, some v) (List.mem_cons_self _ _)
      obtain ⟨hlat, hlng, hpid⟩ := hgood
      obtain ⟨la, hla⟩ := Option.isSome_iff_exists.mp hlat
      obtain ⟨ln, hln⟩ := Option.isSome_iff_exists.mp hlng
      have hnorm : normalize_coords v = .ok ⟨la, ln, normPid v.place_id⟩ := by
        simp [normalize_coords, hla, hln]
      have hv : serialize_entry ⟨la, ln, normPid v.place_id⟩ = v := by
        simp only [serialize_entry]
        rw [normPid_of_ne hpid, ← hla, ← hln]
      refine ⟨(k, some ⟨la, ln, normPid v.place_id⟩) :: c, ?_, ?_⟩
      · simp [load_cache, hnorm, hc, Except.map]
      · simp [save_cache, hs', hv]

/-- Witness for C8 at a concrete orchestrator-shaped cache file. -/
theorem claim8_witness :
    ∃ c, load_cache [("a", some ⟨some 1, some 2, some "p"⟩), ("b", none)] = .ok c
      ∧ save_cache c = [("a", some ⟨some 1, some 2, some "p"⟩), ("b", none)] := by
  exact claim8_round_trip [("a", some ⟨some 1, some 2, some "p"⟩), ("b", none)]
    (by decide)

/-- Claim C9: once the API key is accepted and the cache file has
loaded, the run performs exactly one save at the end — of the cache the
batch body accumulated — on the success path and on the batch-fatal
failure path alike (the save is the `finally` cleanup of the whole
batch, and a batch error still propagates afterwards). -/
theorem claim9_save_on_both_paths (key : String) (hkey : key ≠ "")
    (c0 : Cache) (fr : Bool) (body : Cache → Option GeoErr × Cache) :
    (main_run (some key) (.ok c0) fr body).2
      = [RunEvent.loadEv, RunEvent.saveEv (body (if fr then [] else c0)).2]
  ∧ (∀ e, (body (if fr then [] else c0)).1 = some e →
       (main_run (some key) (.ok c0) fr body).1 = .error (.batch e))
  ∧ ((body (if fr then [] else c0)).1 = none →
       (main_run (some key) (.ok c0) fr body).1 = .ok 0) := by
  cases hb : (body (if fr then [] else c0)).1 with
  | none =>
    refine ⟨?_, fun e he => ?_, fun _ => ?_⟩
    · simp [main_run, hkey, hb]
    · cases he
    · simp [main_run, hkey, hb]
  | some e0 =>
    refine ⟨?_, fun e he => ?_, fun hn => ?_⟩
    · simp [main_run, hkey, hb]
    · cases he
      simp [main_run, hkey, hb]
    · cases hn

/-- Witness for C9: a batch body that raises a quota error after having
cached one negative entry still gets its accumulated cache saved, and
the error propagates. -/
theorem claim9_witness :
    (main_run (some "k") (.ok []) false
        (fun c => (some (.quota "OVER_QUERY_LIMIT" ""), cinsert c "a" none))).2
      = [RunEvent.loadEv, RunEvent.saveEv [("a", none)]]
  ∧ (main_run (some "k") (.ok []) false
        (fun c => (some (.quota "OVER_QUERY_LIMIT" ""), cinsert c "a" none))).1
      = .error (.batch (.quota "OVER_QUERY_LIMIT" "")) := by
  have h := claim9_save_on_both_paths "k" (by decide) [] false
    (fun c => (some (.quota "OVER_QUERY_LIMIT" ""), cinsert c "a" none))
  exact ⟨h.1, h.2.1 (.quota "OVER_QUERY_LIMIT" "") rfl⟩

/-- Claim C10: `find_place`'s cache write discipline — empty query:
`None`, cache untouched; key present: the stored value, no write; key
absent (non-empty query): exactly one write under the place key, whose
value is the first successful strategy's result, or the `None` marker
when both strategies miss or raise; no other key changes. -/
theorem claim10_cache_write_discipline (q : String) (env : Env) (c : Cache)
    (t : ℚ) :
    (q = "" → find_place q env c t = (none, c, []))
  ∧ (∀ v, q ≠ "" → cfind c ("place:" ++ q) = some v →
       find_place q env c t = (v, c, []))
  ∧ (q ≠ "" → cfind c ("place:" ++ q) = none →
       ∃ r ev, find_place q env c t = (r, cinsert c ("place:" ++ q) r, ev)
         ∧ r = (match (runNew env q t).1 with
                | some x => some x
                | none => (runLegacy env q t).1)
         ∧ cfind (cinsert c ("place:" ++ q) r) ("place:" ++ q) = some r
         ∧ (∀ k, k ≠ "place:" ++ q →
              cfind (cinsert c ("place:" ++ q) r) k = cfind c k)) := by
  refine ⟨fun hq => by rw [hq]; exact find_place_empty env c t,
    fun v hq hc => find_place_hit env t hq hc, fun hq hc => ?_⟩
  cases hr : (runNew env q t).1 with
  | some r0 =>
    refine ⟨some r0, (runNew env q t).2, find_place_miss_new hq hc hr, ?_,
      cfind_cinsert_self c _ _, fun k hk => cfind_cinsert_ne c _ _ _ hk⟩
    simp [hr]
  | none =>
    refine ⟨(runLegacy env q t).1, (runNew env q t).2 ++ (runLegacy env q t).2,
      find_place_miss_legacy hq hc hr, ?_,
      cfind_cinsert_self c _ _, fun k hk => cfind_cinsert_ne c _ _ _ hk⟩
    simp [hr]

/-- Witness for C10: a total miss on the structured strategy and a
legacy success is recorded under the candidate's place key. -/
theorem claim10_witness :
    ∃ r ev, find_place "A" envLegacyOnly [] 1
        = (r, cinsert [] ("place:" ++ "A") r, ev)
      ∧ r = (match (runNew envLegacyOnly "A" 1).1 with
             | some x => some x
             | none => (runLegacy envLegacyOnly "A" 1).1)
      ∧ cfind (cinsert [] ("place:" ++ "A") r) ("place:" ++ "A") = some r
      ∧ (∀ k, k ≠ "place:" ++ "A" →
           cfind (cinsert [] ("place:" ++ "A") r) k = cfind [] k) := by
  exact (claim10_cache_write_discipline "A" envLegacyOnly [] 1).2.2
    (by decide) (by decide)

end Furusato
